import Mathlib

/-!
Shallow embedding of the `data-extraction-api` repository core:
the filter model (`app/models/schemas.py`), the dynamic query builder
(`app/services/database.py`), and the endpoint dispatch
(`app/api/query.py`).  Definitions are transcribed from the Python
source; spec-level comparison definitions are marked as such.
-/

namespace DataExtractionApi

/-! ## Calendar dates (model of Python `datetime.date`) -/

/-- A calendar date triple.  Python's `datetime.date` constructor enforces
validity separately (see `validDate`); the raw triple is unconstrained. -/
structure Date where
  year : Nat
  month : Nat
  day : Nat
deriving DecidableEq, Repr

/-- Gregorian leap-year rule, as implemented by Python's `datetime`. -/
def isLeap (y : Nat) : Bool :=
  (y % 4 == 0 && y % 100 != 0) || y % 400 == 0

/-- Days in a month, as implemented by Python's `datetime`. -/
def daysInMonth (y m : Nat) : Nat :=
  if m == 2 then (if isLeap y then 29 else 28)
  else if m == 4 || m == 6 || m == 9 || m == 11 then 30
  else 31

/-- Python `datetime.date(y, m, d)` succeeds exactly under these bounds
(`MINYEAR = 1`, `MAXYEAR = 9999`, day within the month). -/
def validDate (y m d : Nat) : Bool :=
  1 ≤ y && y ≤ 9999 && 1 ≤ m && m ≤ 12 && 1 ≤ d && d ≤ daysInMonth y m

/-- Strict lexicographic order on dates (Python `date.__lt__`). -/
def dateLt (a b : Date) : Bool :=
  a.year < b.year ||
    (a.year == b.year &&
      (a.month < b.month || (a.month == b.month && a.day < b.day)))

/-- Non-strict order on dates (Python `date.__le__`). -/
def dateLe (a b : Date) : Bool :=
  dateLt a b || a == b

/-- Left-pad a numeral to two digits (Python `%02d`). -/
def pad2 (n : Nat) : String :=
  if n < 10 then "0" ++ toString n else toString n

/-- Left-pad a numeral to four digits (Python `%04d`). -/
def pad4 (n : Nat) : String :=
  if n < 10 then "000" ++ toString n
  else if n < 100 then "00" ++ toString n
  else if n < 1000 then "0" ++ toString n
  else toString n

/-- `date.isoformat()`: `YYYY-MM-DD`. -/
def isoDate (d : Date) : String :=
  pad4 d.year ++ "-" ++ pad2 d.month ++ "-" ++ pad2 d.day

/-- Timestamps (`created_at`) are modelled as abstract ticks; only their
order and their opaque textual form at the serialization boundary matter. -/
def isoTimestamp (t : Nat) : String :=
  toString t

/-! ## CPython `strptime` for the fixed pattern `%Y/%m/%d`

`_strptime.py` compiles the pattern to the anchored regex
`(\d\d\d\d)/(1[0-2]|0[1-9]|[1-9])/(3[01]|[12]\d|0[1-9]|[1-9])`
(full-length match required) and then constructs the date, raising
`ValueError` when the triple is not a real calendar date.  Digits are
modelled as ASCII. -/

/-- ASCII digit test (regex `\d`, restricted to ASCII). -/
def isDig (c : Char) : Bool :=
  48 ≤ c.toNat && c.toNat ≤ 57

/-- Numeric value of an ASCII digit character. -/
def digitVal (c : Char) : Nat :=
  c.toNat - 48

/-- Regex fragment `\d\d\d\d` for `%Y`: exactly four digits. -/
def parseYear : List Char → Option (Nat × List Char)
  | a :: b :: c :: d :: rest =>
    if isDig a && isDig b && isDig c && isDig d then
      some (digitVal a * 1000 + digitVal b * 100 + digitVal c * 10 + digitVal d, rest)
    else none
  | _ => none

/-- Regex fragment `1[0-2]|0[1-9]|[1-9]` for `%m` (ordered alternation,
two-character alternatives first, as matched by CPython's compiled
pattern). -/
def parseMonth : List Char → Option (Nat × List Char)
  | [] => none
  | [c] => if isDig c && 1 ≤ digitVal c then some (digitVal c, []) else none
  | a :: b :: rest =>
    if a = '1' && isDig b && digitVal b ≤ 2 then some (10 + digitVal b, rest)
    else if a = '0' then
      if isDig b && 1 ≤ digitVal b then some (digitVal b, rest) else none
    else if isDig a && 1 ≤ digitVal a then some (digitVal a, b :: rest)
    else none

/-- Regex fragment `3[01]|[12]\d|0[1-9]|[1-9]` for `%d`. -/
def parseDay : List Char → Option (Nat × List Char)
  | [] => none
  | [c] => if isDig c && 1 ≤ digitVal c then some (digitVal c, []) else none
  | a :: b :: rest =>
    if a = '3' && (b = '0' || b = '1') then some (30 + digitVal b, rest)
    else if (a = '1' || a = '2') && isDig b then
      some (digitVal a * 10 + digitVal b, rest)
    else if a = '0' then
      if isDig b && 1 ≤ digitVal b then some (digitVal b, rest) else none
    else if isDig a && 1 ≤ digitVal a then some (digitVal a, b :: rest)
    else none

/-- `datetime.strptime(s, "%Y/%m/%d").date()`: regex match over the whole
string, then date construction (which validates the calendar triple). -/
def strptimeYMD (s : String) : Option Date :=
  match parseYear s.toList with
  | some (y, '/' :: r1) =>
    match parseMonth r1 with
    | some (m, '/' :: r2) =>
      match parseDay r2 with
      | some (d, []) => if validDate y m d then some ⟨y, m, d⟩ else none
      | _ => none
    | _ => none
  | _ => none

/-! ## Filter model (`app/models/schemas.py`) -/

/-- `id: Union[str, int, None]` — the present cases. -/
inductive IdValue where
  | str (v : String)
  | int (v : Int)
deriving DecidableEq, Repr

/-- Python `str()` applied to an id value. -/
def IdValue.toStr : IdValue → String
  | .str v => v
  | .int v => toString v

/-- The raw request body for `QueryPayload`, after JSON decoding but before
pydantic validation.  `format` defaults to `"json"` when omitted. -/
structure RawPayload where
  id : Option IdValue := none
  fromDate : Option String := none
  toDate : Option String := none
  environment : Option String := none
  format : String := "json"
deriving DecidableEq, Repr

/-- A validated `QueryPayload` (pydantic keeps the original date strings). -/
structure QueryPayload where
  id : Option IdValue
  fromDate : Option String
  toDate : Option String
  environment : Option String
  format : String
deriving DecidableEq, Repr

/-- Validation outcomes of the pydantic model. -/
inductive ValidationErr where
  | invalidDateFormat (field : String)
  | invalidDateRange
  | invalidFormat
deriving DecidableEq, Repr

/-- The `validate_date_format` field validator: absent passes, otherwise
the string must parse under `%Y/%m/%d`. -/
def dateFieldOk : Option String → Bool
  | none => true
  | some s => (strptimeYMD s).isSome

/-- Pydantic validation of `QueryPayload`: the `fromDate`/`toDate` field
validators, the `Literal["json", "feature"]` check on `format`, then the
`validate_date_range` model validator.  (`id` and `environment` carry no
validator of their own.) -/
def validatePayload (raw : RawPayload) : Except ValidationErr QueryPayload :=
  if !dateFieldOk raw.fromDate then .error (.invalidDateFormat "fromDate")
  else if !dateFieldOk raw.toDate then .error (.invalidDateFormat "toDate")
  else if !(raw.format == "json" || raw.format == "feature") then .error .invalidFormat
  else
    match raw.fromDate, raw.toDate with
    | some fs, some ts =>
      match strptimeYMD fs, strptimeYMD ts with
      | some fd, some td =>
        if dateLt td fd then .error .invalidDateRange
        else .ok ⟨raw.id, raw.fromDate, raw.toDate, raw.environment, raw.format⟩
      | _, _ =>
        -- `validate_date_range` re-raises a generic "Invalid date format";
        -- unreachable because the field validators already ran.
        .error (.invalidDateFormat "")
    | _, _ => .ok ⟨raw.id, raw.fromDate, raw.toDate, raw.environment, raw.format⟩

/-- `QueryPayload.get_parsed_dates`: re-parse the (already validated) date
strings; Python truthiness makes the empty string parse to `None`. -/
def getParsedDates (p : QueryPayload) : Option Date × Option Date :=
  ((match p.fromDate with
    | some s => if s = "" then none else strptimeYMD s
    | none => none),
   (match p.toDate with
    | some s => if s = "" then none else strptimeYMD s
    | none => none))

/-! ## Events and the query builder (`app/services/database.py`) -/

/-- One row of the `events` table.  `value DOUBLE` is modelled by `Rat`
(the core never computes with it, it is carried through unchanged);
`created_at TIMESTAMP` is an abstract tick. -/
structure EventRecord where
  id : String
  event_date : Date
  event_type : String
  description : String
  value : Rat
  environment : String
  created_at : Nat
deriving DecidableEq, Repr

/-- A bound SQL parameter: the builder binds strings and dates. -/
inductive SqlParam where
  | str (v : String)
  | date (v : Date)
deriving DecidableEq, Repr

/-- The effective filters handed to `query_events` by the endpoint. -/
structure Filters where
  id_filter : Option String
  from_date : Option Date
  to_date : Option Date
  environment : Option String
deriving DecidableEq, Repr

/-- `where_conditions` as built in `DatabaseService.query_events`: one
clause appended per present filter, in the fixed order id, from, to,
environment. -/
def where_conditions (f : Filters) : List String :=
  (if f.id_filter.isSome then ["id = ?"] else []) ++
  (if f.from_date.isSome then ["event_date >= ?"] else []) ++
  (if f.to_date.isSome then ["event_date <= ?"] else []) ++
  (if f.environment.isSome then ["environment = ?"] else [])

/-- `params` as built in `DatabaseService.query_events`, in step with
`where_conditions` (the id is passed through `str`, already a string here). -/
def query_params (f : Filters) : List SqlParam :=
  (match f.id_filter with | some i => [.str i] | none => []) ++
  (match f.from_date with | some d => [.date d] | none => []) ++
  (match f.to_date with | some d => [.date d] | none => []) ++
  (match f.environment with | some e => [.str e] | none => [])

/-- `where_clause`: empty, or `"WHERE "` followed by the `" AND "`-join. -/
def where_clause (f : Filters) : String :=
  if where_conditions f = [] then ""
  else "WHERE " ++ String.intercalate " AND " (where_conditions f)

/-- The fixed SQL template text before the interpolated `where_clause`
(transcribed from the f-string in `query_events`, whitespace included). -/
def sqlTemplateHead : String :=
  "\n                SELECT \n                    id,\n                    event_date,\n                    event_type,\n                    description,\n                    value,\n                    environment,\n                    created_at\n                FROM events \n                "

/-- The fixed SQL template text after the interpolated `where_clause`. -/
def sqlTemplateTail : String :=
  "\n                ORDER BY event_date ASC, created_at ASC\n            "

/-- The complete SQL text handed to `conn.execute` by `query_events`. -/
def build_sql (f : Filters) : String :=
  sqlTemplateHead ++ where_clause f ++ sqlTemplateTail

/-- Semantics of one parameterized predicate clause, as DuckDB evaluates
it against a row with its bound parameter. -/
def evalClause (clause : String) (p : SqlParam) (r : EventRecord) : Bool :=
  if clause = "id = ?" then
    match p with | .str v => r.id == v | _ => false
  else if clause = "event_date >= ?" then
    match p with | .date d => dateLe d r.event_date | _ => false
  else if clause = "event_date <= ?" then
    match p with | .date d => dateLe r.event_date d | _ => false
  else if clause = "environment = ?" then
    match p with | .str v => r.environment == v | _ => false
  else false

/-- Semantics of the `" AND "`-joined clause list with its parameter list
(positional binding, conjunction; empty list matches every row). -/
def evalWhere (clauses : List String) (ps : List SqlParam) (r : EventRecord) : Bool :=
  (List.zip clauses ps).all fun cp => evalClause cp.1 cp.2 r

/-- `ORDER BY event_date ASC, created_at ASC` as a relation on rows. -/
def orderKeyLe (a b : EventRecord) : Prop :=
  dateLt a.event_date b.event_date = true ∨
    (a.event_date = b.event_date ∧ a.created_at ≤ b.created_at)

instance : DecidableRel orderKeyLe := fun a b => by
  unfold orderKeyLe; infer_instance

/-- A cell of the serialized row dictionary: strings (including the
ISO-converted dates and timestamps) or the numeric `value`. -/
inductive Cell where
  | s (v : String)
  | num (v : Rat)
deriving DecidableEq, Repr

/-- The per-row serialization loop of `query_events`: dates and
timestamp-like values go through `isoformat`, everything else is passed
through; keys follow the SELECT column order. -/
def rowToDict (r : EventRecord) : List (String × Cell) :=
  [("id", .s r.id),
   ("event_date", .s (isoDate r.event_date)),
   ("event_type", .s r.event_type),
   ("description", .s r.description),
   ("value", .num r.value),
   ("environment", .s r.environment),
   ("created_at", .s (isoTimestamp r.created_at))]

/-- `DatabaseService.query_events` over an events table: execute the
parameterized query (filter by the bound predicate, sort by the ORDER BY
key), fetch all rows, serialize each row to a dictionary. -/
def query_events (f : Filters) (events : List EventRecord) : List (List (String × Cell)) :=
  ((events.filter (evalWhere (where_conditions f) (query_params f))).insertionSort
      orderKeyLe).map rowToDict

/-! The Feather variant `query_events_to_feather` rebuilds the identical
query; its result stays in engine-native (Arrow) form, modelled as the
list of raw records. -/

/-- `where_conditions` as rebuilt in `query_events_to_feather`. -/
def where_conditions_feather (f : Filters) : List String :=
  (if f.id_filter.isSome then ["id = ?"] else []) ++
  (if f.from_date.isSome then ["event_date >= ?"] else []) ++
  (if f.to_date.isSome then ["event_date <= ?"] else []) ++
  (if f.environment.isSome then ["environment = ?"] else [])

/-- `params` as rebuilt in `query_events_to_feather`. -/
def query_params_feather (f : Filters) : List SqlParam :=
  (match f.id_filter with | some i => [.str i] | none => []) ++
  (match f.from_date with | some d => [.date d] | none => []) ++
  (match f.to_date with | some d => [.date d] | none => []) ++
  (match f.environment with | some e => [.str e] | none => [])

/-- `where_clause` as rebuilt in `query_events_to_feather`. -/
def where_clause_feather (f : Filters) : String :=
  if where_conditions_feather f = [] then ""
  else "WHERE " ++ String.intercalate " AND " (where_conditions_feather f)

/-- The complete SQL text of `query_events_to_feather` (same template). -/
def build_sql_feather (f : Filters) : String :=
  sqlTemplateHead ++ where_clause_feather f ++ sqlTemplateTail

/-- `DatabaseService.query_events_to_feather`: identical predicate and
ordering; rows stay columnar/native (no per-row ISO conversion). -/
def query_events_to_feather (f : Filters) (events : List EventRecord) : List EventRecord :=
  (events.filter (evalWhere (where_conditions_feather f) (query_params_feather f))).insertionSort
    orderKeyLe

/-! ## Endpoint dispatch (`app/api/query.py`) -/

/-- The `date_range_parsed` block: `{"from": iso-or-null, "to": iso-or-null}`
(fields named `fromIso`/`toIso` because `from` is reserved). -/
structure DateRangeParsed where
  fromIso : Option String
  toIso : Option String
deriving DecidableEq, Repr

/-- The `query_info` dictionary of a json-mode response: the four echoed
filters plus the optional `date_range_parsed` key. -/
structure QueryInfo where
  id : Option String
  fromDate : Option String
  toDate : Option String
  environment : Option String
  date_range_parsed : Option DateRangeParsed
deriving DecidableEq, Repr

/-- `QueryResponse` (schemas.py): `{data, count, query_info}`. -/
structure QueryResponse where
  data : List (List (String × Cell))
  count : Nat
  query_info : QueryInfo
deriving DecidableEq, Repr

/-- One feature record of a feature-mode response. -/
structure Feature where
  type : String
  id : Option Cell
  properties : List (String × Cell)
  geometry : Option Cell
deriving DecidableEq, Repr

/-- The echoed `query_parameters` block inside feature-mode metadata. -/
structure EchoedParams where
  id : Option String
  fromDate : Option String
  toDate : Option String
  environment : Option String
deriving DecidableEq, Repr

/-- Feature-mode `metadata`: echoed filters, a generation timestamp, and
the optional `date_range_parsed` key. -/
structure FeatureMetadata where
  query_parameters : EchoedParams
  generated_at : Nat
  date_range_parsed : Option DateRangeParsed
deriving DecidableEq, Repr

/-- `FeatureResponse` (schemas.py): `{features, metadata, count, format}`,
with `format` defaulting to `"feature"` in the pydantic model. -/
structure FeatureResponse where
  features : List Feature
  metadata : FeatureMetadata
  count : Nat
  format : String := "feature"
deriving DecidableEq, Repr

/-- Everything the `/api/query` endpoint can hand back to the transport
layer.  Validation failures become FastAPI 422 responses before the
handler body runs; handler-level failures carry the fixed `ErrorResponse`
strings of the corresponding `except` branch. -/
inductive ApiResult where
  | jsonOk (r : QueryResponse)
  | featureOk (r : FeatureResponse)
  | validationFailed (status : Nat) (e : ValidationErr)
  | serverError (status : Nat) (error : String) (details : String)
deriving DecidableEq, Repr

/-- `if from_date is not None or to_date is not None: ... date_range_parsed`. -/
def mkDateRangeParsed (fd td : Option Date) : Option DateRangeParsed :=
  if fd.isSome || td.isSome then some ⟨fd.map isoDate, td.map isoDate⟩ else none

/-- The effective filters the handler passes to the database service. -/
def toFilters (p : QueryPayload) : Filters :=
  ⟨p.id.map IdValue.toStr, (getParsedDates p).1, (getParsedDates p).2, p.environment⟩

/-- The per-row feature construction loop of the `feature` branch:
`{type: "Feature", id: row.get("id"), properties: <non-id items>,
geometry: None}`. -/
def featuresOf (rows : List (List (String × Cell))) : List Feature :=
  rows.map fun row =>
    { type := "Feature"
      id := row.lookup "id"
      properties := row.filter fun kv => kv.1 ≠ "id"
      geometry := none }

/-- The handler body of `query_data`: validation (done by FastAPI/pydantic
before the body runs), date parsing, one engine call, then format
dispatch.  The engine is a parameter so that "never invoked" and failure
behaviour are expressible; `now` models `datetime.now()`. -/
def query_data (raw : RawPayload)
    (engine : Filters → Except String (List (List (String × Cell))))
    (now : Nat) : ApiResult :=
  match validatePayload raw with
  | .error e => .validationFailed 422 e
  | .ok payload =>
    let fd := (getParsedDates payload).1
    let td := (getParsedDates payload).2
    match engine (toFilters payload) with
    | .error _ =>
      -- `except Exception`: fixed generic strings; the raw message is only logged.
      .serverError 500 "Internal server error"
        "An unexpected error occurred while processing the request"
    | .ok data =>
      if payload.format == "feature" then
        let features := featuresOf data
        .featureOk
          { features := features
            count := features.length
            metadata :=
              { query_parameters :=
                  ⟨payload.id.map IdValue.toStr, payload.fromDate,
                   payload.toDate, payload.environment⟩
                generated_at := now
                date_range_parsed := mkDateRangeParsed fd td } }
      else
        .jsonOk
          { data := data
            count := data.length
            query_info :=
              ⟨payload.id.map IdValue.toStr, payload.fromDate,
               payload.toDate, payload.environment,
               mkDateRangeParsed fd td⟩ }

/-- The database engine realized by `DatabaseService.query_events` over a
concrete events table (the non-failing instantiation). -/
def dbEngine (events : List EventRecord) :
    Filters → Except String (List (List (String × Cell))) :=
  fun f => .ok (query_events f events)

/-! ## Health endpoint (`health_check` in `app/api/query.py`) -/

/-- The part of `get_table_info` the health endpoint reads. -/
structure TableInfo where
  row_count : Nat
  unique_ids : List String
deriving DecidableEq, Repr

/-- Health response bodies, as returned to the caller. -/
inductive HealthBody where
  | healthy (connected : Bool) (row_count : Nat) (available_ids : List String)
  | unhealthy (status : String) (error : String)
deriving DecidableEq, Repr

/-- `health_check`: a reachable engine yields status 200 with the healthy
body; any engine failure is caught and answered with a 503 body
`{"status": "unhealthy", "error": str(e)}`. -/
def health_check (engineInfo : Except String TableInfo) : Nat × HealthBody :=
  match engineInfo with
  | .ok ti => (200, .healthy true ti.row_count ti.unique_ids)
  | .error e => (503, .unhealthy "unhealthy" e)

/-! ## Spec-side definitions

These follow the specification's words rather than the source, for
refinement comparisons against the embedded code. -/

/-- Spec-side predicate: "build a conjunctive predicate from only the
fields present in `spec` (id equality, date-range inequalities,
environment equality)"; empty set of filters matches all rows. -/
def matchesSpec (f : Filters) (r : EventRecord) : Bool :=
  (match f.id_filter with | some i => r.id == i | none => true) &&
  (match f.from_date with | some d => dateLe d r.event_date | none => true) &&
  (match f.to_date with | some d => dateLe r.event_date d | none => true) &&
  (match f.environment with | some e => r.environment == e | none => true)

/-- Split a character list at every `'/'` separator ("separated by `/`"). -/
def fields (cs : List Char) : List (List Char) :=
  match cs with
  | [] => [[]]
  | c :: rest =>
    if c = '/' then [] :: fields rest
    else
      match fields rest with
      | f :: fs => (c :: f) :: fs
      | [] => [[c]]

/-- Every character is an ASCII digit. -/
def allDigits (cs : List Char) : Bool :=
  cs.all isDig

/-- The numeral denoted by a digit list. -/
def natOfDigits (cs : List Char) : Nat :=
  cs.foldl (fun n c => 10 * n + digitVal c) 0

/-- Spec-side: a 4-digit year component. -/
def yearOK (y : List Char) : Bool :=
  y.length == 4 && allDigits y

/-- Spec-side (amended): a one- or two-digit month component in 1..12. -/
def monthOK (m : List Char) : Bool :=
  allDigits m && 1 ≤ m.length && m.length ≤ 2 &&
    1 ≤ natOfDigits m && natOfDigits m ≤ 12

/-- Spec-side (amended): a one- or two-digit day component in 1..31. -/
def dayOK (d : List Char) : Bool :=
  allDigits d && 1 ≤ d.length && d.length ≤ 2 &&
    1 ≤ natOfDigits d && natOfDigits d ≤ 31

/-- Spec-side (amended) date acceptance: slash-separated year/month/day
components of the admissible digit widths denoting a real calendar date. -/
def specAcceptYMD (s : String) : Bool :=
  match fields s.toList with
  | [y, m, d] =>
    yearOK y && monthOK m && dayOK d &&
      validDate (natOfDigits y) (natOfDigits m) (natOfDigits d)
  | _ => false

/-- The claim's literal fixed pattern: 4-digit year, 2-digit month,
2-digit day separated by `'/'`, denoting a real calendar date. -/
def fixedPattern422 (s : String) : Bool :=
  match fields s.toList with
  | [y, m, d] =>
    y.length == 4 && allDigits y && m.length == 2 && allDigits m &&
      d.length == 2 && allDigits d &&
      validDate (natOfDigits y) (natOfDigits m) (natOfDigits d)
  | _ => false

/-- The spec's SQL-metacharacter id: `12345'; DROP TABLE events; --`
(the apostrophe is spelled via its code point). -/
def injectionId : String :=
  "12345" ++ String.singleton (Char.ofNat 39) ++ "; DROP TABLE events; --"

/-! ## Helper lemmas -/



theorem fields_ne_nil (cs : List Char) : fields cs ≠ [] := by
  cases cs with
  | nil => simp [fields]
  | cons c rest =>
    simp only [fields]
    split
    · simp
    · split <;> simp

theorem no_slash_of_allDigits {l : List Char} (h : allDigits l = true) :
    '/' ∉ l := by
  intro hm
  have hd := List.all_eq_true.mp h _ hm
  simp [isDig] at hd

theorem slash_not_mem_cons {c : Char} {l : List Char}
    (hc : ¬ c = '/') (hl : '/' ∉ l) : '/' ∉ c :: l := by
  intro hm
  rcases List.mem_cons.mp hm with h | h
  · exact hc h.symm
  · exact hl h

theorem fields_no_slash {a : List Char} (h : '/' ∉ a) : fields a = [a] := by
  induction a with
  | nil => rfl
  | cons c rest ih =>
    simp only [List.mem_cons, not_or] at h
    have hc : ¬ c = '/' := fun hcc => h.1 hcc.symm
    simp only [fields, if_neg hc, ih h.2]

theorem fields_append {a : List Char} (r : List Char) (h : '/' ∉ a) :
    fields (a ++ '/' :: r) = a :: fields r := by
  induction a with
  | nil => simp [fields]
  | cons c rest ih =>
    simp only [List.mem_cons, not_or] at h
    have hc : ¬ c = '/' := fun hcc => h.1 hcc.symm
    rw [List.cons_append]
    simp only [fields, if_neg hc, ih h.2]

theorem fields_one {cs y : List Char} (h : fields cs = [y]) :
    cs = y ∧ '/' ∉ y := by
  induction cs generalizing y with
  | nil =>
    simp only [fields, List.cons.injEq, and_true] at h
    subst h; simp
  | cons c rest ih =>
    simp only [fields] at h
    by_cases hc : c = '/'
    · rw [if_pos hc] at h
      simp only [List.cons.injEq] at h
      exact absurd h.2 (fields_ne_nil rest)
    · rw [if_neg hc] at h
      rcases hr : fields rest with _ | ⟨f, fs⟩
      · exact absurd hr (fields_ne_nil rest)
      · rw [hr] at h
        simp only [List.cons.injEq] at h
        obtain ⟨hy, hfs⟩ := h
        subst hfs
        obtain ⟨hrest, hns⟩ := ih hr
        subst hrest
        subst hy
        exact ⟨rfl, slash_not_mem_cons hc hns⟩

theorem fields_two {cs m d : List Char} (h : fields cs = [m, d]) :
    cs = m ++ '/' :: d ∧ '/' ∉ m ∧ '/' ∉ d := by
  induction cs generalizing m d with
  | nil => simp [fields] at h
  | cons c rest ih =>
    simp only [fields] at h
    by_cases hc : c = '/'
    · rw [if_pos hc] at h
      simp only [List.cons.injEq] at h
      obtain ⟨hm, hrest⟩ := h
      obtain ⟨hr, hnd⟩ := fields_one hrest
      subst hm; subst hr; subst hc
      simp [hnd]
    · rw [if_neg hc] at h
      rcases hr : fields rest with _ | ⟨f, fs⟩
      · exact absurd hr (fields_ne_nil rest)
      · rw [hr] at h
        simp only [List.cons.injEq] at h
        obtain ⟨hm, hfs⟩ := h
        subst hfs
        obtain ⟨hrest, hnf, hnd⟩ := ih hr
        subst hrest
        subst hm
        exact ⟨by simp, slash_not_mem_cons hc hnf, hnd⟩

theorem fields_three {cs y m d : List Char} (h : fields cs = [y, m, d]) :
    cs = y ++ '/' :: (m ++ '/' :: d) ∧ '/' ∉ y ∧ '/' ∉ m ∧ '/' ∉ d := by
  induction cs generalizing y m d with
  | nil => simp [fields] at h
  | cons c rest ih =>
    simp only [fields] at h
    by_cases hc : c = '/'
    · rw [if_pos hc] at h
      simp only [List.cons.injEq] at h
      obtain ⟨hy, hrest⟩ := h
      obtain ⟨hr, hnm, hnd⟩ := fields_two hrest
      subst hy; subst hr; subst hc
      simp [hnm, hnd]
    · rw [if_neg hc] at h
      rcases hr : fields rest with _ | ⟨f, fs⟩
      · exact absurd hr (fields_ne_nil rest)
      · rw [hr] at h
        simp only [List.cons.injEq] at h
        obtain ⟨hy, hfs⟩ := h
        subst hfs
        obtain ⟨hrest, hnf, hnm, hnd⟩ := ih hr
        subst hrest
        subst hy
        exact ⟨by simp, slash_not_mem_cons hc hnf, hnm, hnd⟩

theorem char_toNat_inj {a b : Char} (h : a.toNat = b.toNat) : a = b := by
  have ha := Char.ofNat_toNat a
  rw [h] at ha
  exact ha.symm.trans (Char.ofNat_toNat b)

theorem char_eq_zero {c : Char} (hd : isDig c = true) (hv : digitVal c = 0) :
    c = '0' := by
  simp only [isDig, Bool.and_eq_true, decide_eq_true_eq] at hd
  simp only [digitVal] at hv
  exact char_toNat_inj (by omega : c.toNat = 48)

theorem char_eq_one {c : Char} (hd : isDig c = true) (hv : digitVal c = 1) :
    c = '1' := by
  simp only [isDig, Bool.and_eq_true, decide_eq_true_eq] at hd
  simp only [digitVal] at hv
  exact char_toNat_inj (by omega : c.toNat = 49)



theorem isDig_iff {c : Char} : isDig c = true ↔ 48 ≤ c.toNat ∧ c.toNat ≤ 57 := by
  simp [isDig]

theorem digitVal_le_nine {c : Char} (h : isDig c = true) : digitVal c ≤ 9 := by
  rcases isDig_iff.mp h with ⟨h1, h2⟩
  simp only [digitVal]
  omega

theorem isDig_zero : isDig '0' = true := by decide
theorem isDig_one : isDig '1' = true := by decide
theorem isDig_two : isDig '2' = true := by decide
theorem isDig_three : isDig '3' = true := by decide
theorem digitVal_zero : digitVal '0' = 0 := by decide
theorem digitVal_one : digitVal '1' = 1 := by decide
theorem digitVal_two : digitVal '2' = 2 := by decide
theorem digitVal_three : digitVal '3' = 3 := by decide

theorem natOfDigits_one (c : Char) : natOfDigits [c] = digitVal c := by
  simp [natOfDigits]

theorem natOfDigits_two (a b : Char) :
    natOfDigits [a, b] = 10 * digitVal a + digitVal b := by
  simp [natOfDigits]

theorem natOfDigits_four (a b c d : Char) :
    natOfDigits [a, b, c, d] =
      digitVal a * 1000 + digitVal b * 100 + digitVal c * 10 + digitVal d := by
  simp only [natOfDigits, List.foldl_cons, List.foldl_nil]
  ring

theorem char_eq_two {c : Char} (hd : isDig c = true) (hv : digitVal c = 2) :
    c = '2' := by
  rcases isDig_iff.mp hd with ⟨h1, _⟩
  simp only [digitVal] at hv
  exact char_toNat_inj (by omega : c.toNat = 50)

theorem char_eq_three {c : Char} (hd : isDig c = true) (hv : digitVal c = 3) :
    c = '3' := by
  rcases isDig_iff.mp hd with ⟨h1, _⟩
  simp only [digitVal] at hv
  exact char_toNat_inj (by omega : c.toNat = 51)

theorem two_le_digitVal {a : Char} (hd : isDig a = true)
    (h0 : a ≠ '0') (h1 : a ≠ '1') : 2 ≤ digitVal a := by
  rcases Nat.lt_or_ge (digitVal a) 2 with h | h
  · interval_cases hv : digitVal a
    · exact absurd (char_eq_zero hd hv) h0
    · exact absurd (char_eq_one hd hv) h1
  · exact h

theorem parseYear_eq_some {cs : List Char} {y : Nat} {rest : List Char}
    (h : parseYear cs = some (y, rest)) :
    ∃ a b c d, cs = a :: b :: c :: d :: rest ∧
      allDigits [a, b, c, d] = true ∧ y = natOfDigits [a, b, c, d] := by
  match cs with
  | [] => simp [parseYear] at h
  | [a] => simp [parseYear] at h
  | [a, b] => simp [parseYear] at h
  | [a, b, c] => simp [parseYear] at h
  | a :: b :: c :: d :: r =>
    simp only [parseYear] at h
    split at h
    · rename_i hcond
      simp only [Option.some.injEq, Prod.mk.injEq] at h
      obtain ⟨hy, hr⟩ := h
      subst hr
      simp only [Bool.and_eq_true] at hcond
      refine ⟨a, b, c, d, rfl, ?_, ?_⟩
      · simp [allDigits, hcond.1.1.1, hcond.1.1.2, hcond.1.2, hcond.2]
      · rw [natOfDigits_four]
        omega
    · simp at h

theorem parseYear_complete {a b c d : Char} (rest : List Char)
    (hdig : allDigits [a, b, c, d] = true) :
    parseYear (a :: b :: c :: d :: rest) = some (natOfDigits [a, b, c, d], rest) := by
  simp only [allDigits, List.all_cons, List.all_nil, Bool.and_true, Bool.and_eq_true] at hdig
  obtain ⟨ha, hb, hc, hd⟩ := hdig
  simp only [parseYear, ha, hb, hc, hd, Bool.and_self, if_true, natOfDigits_four,
    Option.some.injEq, Prod.mk.injEq]

theorem parseMonth_eq_some {cs : List Char} {m : Nat} {rest : List Char}
    (h : parseMonth cs = some (m, rest)) :
    ∃ mcs, cs = mcs ++ rest ∧ allDigits mcs = true ∧ 1 ≤ mcs.length ∧
      mcs.length ≤ 2 ∧ natOfDigits mcs = m ∧ 1 ≤ m ∧ m ≤ 12 := by
  rcases cs with _ | ⟨a, _ | ⟨b, r⟩⟩
  · simp [parseMonth] at h
  · simp only [parseMonth] at h
    split at h
    · rename_i hcond
      simp only [Bool.and_eq_true, decide_eq_true_eq] at hcond
      simp only [Option.some.injEq, Prod.mk.injEq] at h
      obtain ⟨hm, hr⟩ := h
      subst hr
      exact ⟨[a], by simp, by simp [allDigits, hcond.1], by simp, by simp,
        by rw [natOfDigits_one, hm], by omega, by have := digitVal_le_nine hcond.1; omega⟩
    · simp at h
  · simp only [parseMonth] at h
    split at h
    · rename_i hcond
      simp only [Bool.and_eq_true, decide_eq_true_eq] at hcond
      obtain ⟨⟨ha1, hdb⟩, hb2⟩ := hcond
      subst ha1
      simp only [Option.some.injEq, Prod.mk.injEq] at h
      obtain ⟨hm, hr⟩ := h
      subst hr
      refine ⟨['1', b], by simp, by simp [allDigits, hdb, isDig_one], by simp, by simp,
        ?_, by omega, by omega⟩
      rw [natOfDigits_two, digitVal_one]
      omega
    · rename_i hne1
      split at h
      · rename_i ha0
        split at h
        · rename_i hcond
          simp only [Bool.and_eq_true, decide_eq_true_eq] at hcond
          simp only [Option.some.injEq, Prod.mk.injEq] at h
          obtain ⟨hm, hr⟩ := h
          subst hr
          subst ha0
          refine ⟨['0', b], by simp, by simp [allDigits, hcond.1, isDig_zero], by simp,
            by simp, ?_, by omega, by have := digitVal_le_nine hcond.1; omega⟩
          rw [natOfDigits_two, digitVal_zero]
          omega
        · simp at h
      · split at h
        · rename_i hcond
          simp only [Bool.and_eq_true, decide_eq_true_eq] at hcond
          simp only [Option.some.injEq, Prod.mk.injEq] at h
          obtain ⟨hm, hr⟩ := h
          subst hr
          exact ⟨[a], by simp, by simp [allDigits, hcond.1], by simp, by simp,
            by rw [natOfDigits_one, hm], by omega, by have := digitVal_le_nine hcond.1; omega⟩
        · simp at h



theorem four_le_digitVal {a : Char} (hd : isDig a = true)
    (h0 : a ≠ '0') (h1 : a ≠ '1') (h2 : a ≠ '2') (h3 : a ≠ '3') :
    4 ≤ digitVal a := by
  rcases Nat.lt_or_ge (digitVal a) 4 with h | h
  · interval_cases hv : digitVal a
    · exact absurd (char_eq_zero hd hv) h0
    · exact absurd (char_eq_one hd hv) h1
    · exact absurd (char_eq_two hd hv) h2
    · exact absurd (char_eq_three hd hv) h3
  · exact h

theorem ne_zero_char {a : Char} (hd : isDig a = true) (h : 1 ≤ digitVal a) :
    ¬ a = '0' := by
  intro h0
  subst h0
  simp [digitVal_zero] at h

theorem parseMonth_complete {mcs : List Char} (tail : List Char)
    (hdig : allDigits mcs = true) (hl1 : 1 ≤ mcs.length) (hl2 : mcs.length ≤ 2)
    (hv1 : 1 ≤ natOfDigits mcs) (hv2 : natOfDigits mcs ≤ 12) :
    parseMonth (mcs ++ '/' :: tail) = some (natOfDigits mcs, '/' :: tail) := by
  have hslash : isDig '/' = false := by decide
  rcases mcs with _ | ⟨a, _ | ⟨b, r⟩⟩
  · simp at hl1
  · have hda : isDig a = true := by simpa [allDigits] using hdig
    rw [natOfDigits_one] at hv1 hv2 ⊢
    simp only [List.cons_append, List.nil_append, parseMonth, hslash, Bool.and_false,
      Bool.false_and, Bool.false_eq_true, if_false]
    rw [if_neg (ne_zero_char hda hv1), if_pos (by simp [hda, hv1])]
  · have hr : r = [] := by
      rcases r with _ | _
      · rfl
      · simp at hl2
    subst hr
    simp only [allDigits, List.all_cons, List.all_nil, Bool.and_true,
      Bool.and_eq_true] at hdig
    obtain ⟨hda, hdb⟩ := hdig
    rw [natOfDigits_two] at hv1 hv2 ⊢
    by_cases ha1 : a = '1'
    · subst ha1
      rw [digitVal_one] at hv1 hv2 ⊢
      simp only [List.cons_append, List.nil_append, parseMonth]
      rw [if_pos (by simp [hdb]; omega)]
    · by_cases ha0 : a = '0'
      · subst ha0
        rw [digitVal_zero] at hv1 hv2 ⊢
        simp only [List.cons_append, List.nil_append, parseMonth]
        rw [if_neg (by simp), if_pos (by trivial), if_pos (by simp [hdb]; omega)]
        simp
      · have h2 := two_le_digitVal hda ha0 ha1
        exact absurd hv2 (by omega)

theorem parseDay_eq_some {cs : List Char} {m : Nat} {rest : List Char}
    (h : parseDay cs = some (m, rest)) :
    ∃ dcs, cs = dcs ++ rest ∧ allDigits dcs = true ∧ 1 ≤ dcs.length ∧
      dcs.length ≤ 2 ∧ natOfDigits dcs = m ∧ 1 ≤ m ∧ m ≤ 31 := by
  rcases cs with _ | ⟨a, _ | ⟨b, r⟩⟩
  · simp [parseDay] at h
  · simp only [parseDay] at h
    split at h
    · rename_i hcond
      simp only [Bool.and_eq_true, decide_eq_true_eq] at hcond
      simp only [Option.some.injEq, Prod.mk.injEq] at h
      obtain ⟨hm, hrr⟩ := h
      subst hrr
      exact ⟨[a], by simp, by simp [allDigits, hcond.1], by simp, by simp,
        by rw [natOfDigits_one, hm], by omega, by have := digitVal_le_nine hcond.1; omega⟩
    · simp at h
  · simp only [parseDay] at h
    split at h
    · rename_i hcond
      simp only [Bool.and_eq_true, Bool.or_eq_true, decide_eq_true_eq] at hcond
      obtain ⟨ha3, hb01⟩ := hcond
      subst ha3
      simp only [Option.some.injEq, Prod.mk.injEq] at h
      obtain ⟨hm, hrr⟩ := h
      subst hrr
      have hdb : isDig b = true := by
        rcases hb01 with h | h <;> subst h <;> decide
      have hvb : digitVal b ≤ 1 := by
        rcases hb01 with h | h <;> subst h <;> decide
      refine ⟨['3', b], by simp, by simp [allDigits, hdb, isDig_three], by simp, by simp,
        ?_, by omega, by omega⟩
      rw [natOfDigits_two, digitVal_three]
      omega
    · rename_i hne3
      split at h
      · rename_i hcond
        simp only [Bool.and_eq_true, Bool.or_eq_true, decide_eq_true_eq] at hcond
        obtain ⟨ha12, hdb⟩ := hcond
        simp only [Option.some.injEq, Prod.mk.injEq] at h
        obtain ⟨hm, hrr⟩ := h
        subst hrr
        have hda : isDig a = true := by
          rcases ha12 with h | h <;> subst h <;> decide
        have hva : digitVal a ≤ 2 ∧ 1 ≤ digitVal a := by
          rcases ha12 with h | h <;> subst h <;> exact ⟨by decide, by decide⟩
        have hvb := digitVal_le_nine hdb
        refine ⟨[a, b], by simp, by simp [allDigits, hda, hdb], by simp, by simp, ?_,
          by omega, by omega⟩
        rw [natOfDigits_two]
        omega
      · split at h
        · rename_i ha0
          split at h
          · rename_i hcond
            simp only [Bool.and_eq_true, decide_eq_true_eq] at hcond
            simp only [Option.some.injEq, Prod.mk.injEq] at h
            obtain ⟨hm, hrr⟩ := h
            subst hrr
            subst ha0
            refine ⟨['0', b], by simp, by simp [allDigits, hcond.1, isDig_zero], by simp,
              by simp, ?_, by omega, by have := digitVal_le_nine hcond.1; omega⟩
            rw [natOfDigits_two, digitVal_zero]
            omega
          · simp at h
        · split at h
          · rename_i hcond
            simp only [Bool.and_eq_true, decide_eq_true_eq] at hcond
            simp only [Option.some.injEq, Prod.mk.injEq] at h
            obtain ⟨hm, hrr⟩ := h
            subst hrr
            exact ⟨[a], by simp, by simp [allDigits, hcond.1], by simp, by simp,
              by rw [natOfDigits_one, hm], by omega,
              by have := digitVal_le_nine hcond.1; omega⟩
          · simp at h

theorem parseDay_complete {dcs : List Char}
    (hdig : allDigits dcs = true) (hl1 : 1 ≤ dcs.length) (hl2 : dcs.length ≤ 2)
    (hv1 : 1 ≤ natOfDigits dcs) (hv2 : natOfDigits dcs ≤ 31) :
    parseDay dcs = some (natOfDigits dcs, []) := by
  rcases dcs with _ | ⟨a, _ | ⟨b, r⟩⟩
  · simp at hl1
  · have hda : isDig a = true := by simpa [allDigits] using hdig
    rw [natOfDigits_one] at hv1 hv2 ⊢
    simp only [parseDay]
    rw [if_pos (by simp [hda, hv1])]
  · have hr : r = [] := by
      rcases r with _ | _
      · rfl
      · simp at hl2
    subst hr
    simp only [allDigits, List.all_cons, List.all_nil, Bool.and_true,
      Bool.and_eq_true] at hdig
    obtain ⟨hda, hdb⟩ := hdig
    rw [natOfDigits_two] at hv1 hv2 ⊢
    by_cases ha3 : a = '3'
    · subst ha3
      rw [digitVal_three] at hv1 hv2 ⊢
      have hvb : digitVal b ≤ 1 := by omega
      have hb01 : b = '0' ∨ b = '1' := by
        rcases Nat.le_one_iff_eq_zero_or_eq_one.mp hvb with h | h
        · exact Or.inl (char_eq_zero hdb h)
        · exact Or.inr (char_eq_one hdb h)
      simp only [parseDay]
      rw [if_pos (by rcases hb01 with h | h <;> simp [h])]
    · by_cases ha1 : a = '1'
      · subst ha1
        simp only [parseDay]
        rw [if_neg (by simp), if_pos (by simp [hdb])]
        simp only [Option.some.injEq, Prod.mk.injEq]
        exact ⟨by omega, trivial⟩
      · by_cases ha2 : a = '2'
        · subst ha2
          simp only [parseDay]
          rw [if_neg (by simp), if_pos (by simp [hdb])]
          simp only [Option.some.injEq, Prod.mk.injEq]
          exact ⟨by omega, trivial⟩
        · by_cases ha0 : a = '0'
          · subst ha0
            rw [digitVal_zero] at hv1 hv2 ⊢
            simp only [parseDay]
            rw [if_neg (by simp), if_neg (by simp), if_pos (by trivial),
              if_pos (by simp [hdb]; omega)]
            simp
          · have h4 := four_le_digitVal hda ha0 ha1 ha2 ha3
            exact absurd hv2 (by omega)



theorem strptime_sound {s : String} {dt : Date} (h : strptimeYMD s = some dt) :
    specAcceptYMD s = true := by
  unfold strptimeYMD at h
  split at h
  · rename_i y r1 hy
    split at h
    · rename_i m r2 hm
      split at h
      · rename_i d hd
        split at h
        · rename_i hvalid
          obtain ⟨a, b, c, d4, hsy, hydig, hyval⟩ := parseYear_eq_some hy
          obtain ⟨mcs, hr1, hmdig, hml1, hml2, hmval, hm1, hm12⟩ := parseMonth_eq_some hm
          obtain ⟨dcs, hr2, hddig, hdl1, hdl2, hdval, hd1, hd31⟩ := parseDay_eq_some hd
          rw [List.append_nil] at hr2
          subst hr2
          have hY : allDigits [a, b, c, d4] = true := hydig
          have hsl : s.toList = [a, b, c, d4] ++ '/' :: (mcs ++ '/' :: r2) := by
            rw [hsy, hr1]
            simp
          unfold specAcceptYMD
          rw [hsl, fields_append _ (no_slash_of_allDigits hY),
            fields_append _ (no_slash_of_allDigits hmdig),
            fields_no_slash (no_slash_of_allDigits hddig)]
          simp only [yearOK, monthOK, dayOK, Bool.and_eq_true, beq_iff_eq,
            decide_eq_true_eq]
          refine ⟨⟨⟨by simp [hY], ?_⟩, ?_⟩, ?_⟩
          · exact ⟨⟨⟨⟨hmdig, hml1⟩, hml2⟩, by omega⟩, by omega⟩
          · exact ⟨⟨⟨⟨hddig, hdl1⟩, hdl2⟩, by omega⟩, by omega⟩
          · rw [← hyval, hmval, hdval]
            exact hvalid
        · simp at h
      · simp at h
    · simp at h
  · simp at h

theorem strptime_complete {s : String} (h : specAcceptYMD s = true) :
    (strptimeYMD s).isSome = true := by
  unfold specAcceptYMD at h
  split at h
  · rename_i y m d hf
    simp only [yearOK, monthOK, dayOK, Bool.and_eq_true, beq_iff_eq,
      decide_eq_true_eq] at h
    obtain ⟨⟨⟨⟨hylen, hydig⟩, ⟨⟨⟨⟨hmdig, hml1⟩, hml2⟩, hm1⟩, hm12⟩⟩,
      ⟨⟨⟨⟨hddig, hdl1⟩, hdl2⟩, hd1⟩, hd31⟩⟩, hvalid⟩ := h
    obtain ⟨hsl, hny, hnm, hnd⟩ := fields_three hf
    match y, hylen with
    | [a, b, c, d4], _ =>
      unfold strptimeYMD
      rw [hsl]
      rw [List.cons_append, List.cons_append, List.cons_append, List.cons_append,
        List.nil_append]
      rw [parseYear_complete _ hydig]
      simp only [parseMonth_complete d hmdig hml1 hml2 hm1 (by omega),
        parseDay_complete hddig hdl1 hdl2 hd1 (by omega), hvalid, if_true,
        Option.isSome_some]
  · simp at h

theorem strptime_isSome_iff_spec (s : String) :
    (strptimeYMD s).isSome = specAcceptYMD s := by
  cases hs : strptimeYMD s with
  | some dt => simp [strptime_sound hs]
  | none =>
    rcases ha : specAcceptYMD s with _ | _
    · simp
    · have := strptime_complete ha
      rw [hs] at this
      simp at this



/-- Inversion of a successful validation: the payload carries the raw
fields unchanged and every validator passed. -/
theorem validate_ok_inv {raw : RawPayload} {p : QueryPayload}
    (h : validatePayload raw = .ok p) :
    p = ⟨raw.id, raw.fromDate, raw.toDate, raw.environment, raw.format⟩ ∧
    dateFieldOk raw.fromDate = true ∧ dateFieldOk raw.toDate = true ∧
    (raw.format = "json" ∨ raw.format = "feature") := by
  unfold validatePayload at h
  split at h
  · simp at h
  · rename_i h1
    split at h
    · simp at h
    · rename_i h2
      split at h
      · simp at h
      · rename_i h3
        simp only [Bool.not_eq_true', Bool.not_eq_false] at h1 h2
        simp only [Bool.not_eq_true, Bool.not_eq_false,
          Bool.or_eq_true, beq_iff_eq] at h3
        have h3' : raw.format = "json" ∨ raw.format = "feature" := by
          rcases hb : (raw.format == "json" || raw.format == "feature") with _ | _
          · rw [hb] at h3
            simp at h3
          · simpa [beq_iff_eq] using hb
        split at h
        · split at h
          · split at h
            · simp at h
            · simp only [Except.ok.injEq] at h
              exact ⟨h.symm, h1, h2, h3'⟩
          · simp at h
        · simp only [Except.ok.injEq] at h
          exact ⟨h.symm, h1, h2, h3'⟩

/-- A present, validated date string parses; the truthiness guard in
`get_parsed_dates` never hides it. -/
theorem getParsedDates_isSome {p : QueryPayload}
    (hf : dateFieldOk p.fromDate = true) (ht : dateFieldOk p.toDate = true) :
    (getParsedDates p).1.isSome = p.fromDate.isSome ∧
    (getParsedDates p).2.isSome = p.toDate.isSome := by
  unfold getParsedDates
  constructor
  · rcases hpf : p.fromDate with _ | s
    · simp
    · rw [hpf] at hf
      simp only [dateFieldOk] at hf
      by_cases hs : s = ""
      · subst hs
        simp [strptimeYMD, parseYear] at hf
      · simp [hs, hf]
  · rcases hpt : p.toDate with _ | s
    · simp
    · rw [hpt] at ht
      simp only [dateFieldOk] at ht
      by_cases hs : s = ""
      · subst hs
        simp [strptimeYMD, parseYear] at ht
      · simp [hs, ht]

/-- `mkDateRangeParsed` is present exactly when a date bound is. -/
theorem mkDateRangeParsed_isSome (fd td : Option Date) :
    (mkDateRangeParsed fd td).isSome = (fd.isSome || td.isSome) := by
  unfold mkDateRangeParsed
  split <;> rename_i h <;> simp_all

theorem evalWhere_matches (f : Filters) (r : EventRecord) :
    evalWhere (where_conditions f) (query_params f) r = matchesSpec f r := by
  rcases f with ⟨i, fd, td, env⟩
  cases i <;> cases fd <;> cases td <;> cases env <;>
    simp [where_conditions, query_params, evalWhere, evalClause, matchesSpec,
      Bool.and_assoc]

theorem where_conditions_feather_eq (f : Filters) :
    where_conditions_feather f = where_conditions f := rfl

theorem query_params_feather_eq (f : Filters) :
    query_params_feather f = query_params f := rfl

theorem build_sql_feather_eq (f : Filters) :
    build_sql_feather f = build_sql f := rfl

theorem feather_map_rowToDict (f : Filters) (events : List EventRecord) :
    (query_events_to_feather f events).map rowToDict = query_events f events := rfl

theorem orderKeyLe_iff (a b : EventRecord) :
    orderKeyLe a b ↔
      (a.event_date.year < b.event_date.year ∨
        (a.event_date.year = b.event_date.year ∧
          (a.event_date.month < b.event_date.month ∨
            (a.event_date.month = b.event_date.month ∧
              (a.event_date.day < b.event_date.day ∨
                (a.event_date.day = b.event_date.day ∧
                  a.created_at ≤ b.created_at)))))) := by
  rcases a with ⟨_, ⟨ay, am, ad⟩, _, _, _, _, ac⟩
  rcases b with ⟨_, ⟨yb, mb, db⟩, _, _, _, _, cb⟩
  simp only [orderKeyLe, dateLt, Date.mk.injEq, Bool.or_eq_true, Bool.and_eq_true,
    decide_eq_true_eq, beq_iff_eq]
  constructor
  · rintro (h | h) <;> omega
  · intro h
    omega

instance : IsTotal EventRecord orderKeyLe :=
  ⟨fun a b => by rw [orderKeyLe_iff a b, orderKeyLe_iff b a]; omega⟩

instance : IsTrans EventRecord orderKeyLe :=
  ⟨fun a b c hab hbc => by
    rw [orderKeyLe_iff] at hab hbc ⊢
    omega⟩



theorem matchesSpec_env {f : Filters} {r : EventRecord} {env : String}
    (h : matchesSpec f r = true) (he : f.environment = some env) :
    r.environment = env := by
  unfold matchesSpec at h
  rw [he] at h
  simp only [Bool.and_eq_true, beq_iff_eq] at h
  exact h.2

theorem rowToDict_props_env (r : EventRecord) :
    (((rowToDict r).filter fun kv => kv.1 ≠ "id").lookup "environment") =
      some (.s r.environment) := by
  simp [rowToDict, List.filter, List.lookup]

theorem date_range_flag {raw : RawPayload} {p : QueryPayload}
    (hv : validatePayload raw = .ok p) :
    (mkDateRangeParsed (getParsedDates p).1 (getParsedDates p).2).isSome =
      (p.fromDate.isSome || p.toDate.isSome) := by
  obtain ⟨hp, hdf, hdt, -⟩ := validate_ok_inv hv
  subst hp
  obtain ⟨h1, h2⟩ := getParsedDates_isSome
    (p := ⟨raw.id, raw.fromDate, raw.toDate, raw.environment, raw.format⟩) hdf hdt
  rw [mkDateRangeParsed_isSome, h1, h2]

theorem query_data_json_eq {raw : RawPayload} {p : QueryPayload}
    (events : List EventRecord) (now : Nat)
    (hv : validatePayload raw = .ok p) (hfmt : p.format = "json") :
    query_data raw (dbEngine events) now =
      .jsonOk
        { data := query_events (toFilters p) events
          count := (query_events (toFilters p) events).length
          query_info :=
            ⟨p.id.map IdValue.toStr, p.fromDate, p.toDate, p.environment,
             mkDateRangeParsed (getParsedDates p).1 (getParsedDates p).2⟩ } := by
  unfold query_data
  rw [hv]
  simp [dbEngine, hfmt]

theorem query_data_feature_eq {raw : RawPayload} {p : QueryPayload}
    (events : List EventRecord) (now : Nat)
    (hv : validatePayload raw = .ok p) (hfmt : p.format = "feature") :
    query_data raw (dbEngine events) now =
      .featureOk
        { features := featuresOf (query_events (toFilters p) events)
          count := (featuresOf (query_events (toFilters p) events)).length
          metadata :=
            { query_parameters :=
                ⟨p.id.map IdValue.toStr, p.fromDate, p.toDate, p.environment⟩
              generated_at := now
              date_range_parsed :=
                mkDateRangeParsed (getParsedDates p).1 (getParsedDates p).2 } } := by
  unfold query_data
  rw [hv]
  simp [dbEngine, hfmt]

theorem mem_query_events {f : Filters} {events : List EventRecord}
    {row : List (String × Cell)} (h : row ∈ query_events f events) :
    ∃ r : EventRecord, r ∈ events ∧ matchesSpec f r = true ∧ row = rowToDict r := by
  unfold query_events at h
  obtain ⟨r, hr, hrow⟩ := List.mem_map.mp h
  have hr' : r ∈ events.filter (evalWhere (where_conditions f) (query_params f)) :=
    (List.perm_insertionSort orderKeyLe _).mem_iff.mp hr
  obtain ⟨hmem, hev⟩ := List.mem_filter.mp hr'
  rw [evalWhere_matches] at hev
  exact ⟨r, hmem, hev, hrow.symm⟩





/-- **C7.**  A successful json-mode request answers with `{data, count,
query_info}` where `data` is exactly the query builder's rows, `count`
their number, `query_info` echoes the four filters with the id normalized
to a string, and the parsed-date-range block is present exactly when at
least one date filter was supplied. -/
theorem c7_json_response_shape (raw : RawPayload) (p : QueryPayload)
    (events : List EventRecord) (now : Nat)
    (hv : validatePayload raw = .ok p) (hfmt : p.format = "json") :
    query_data raw (dbEngine events) now =
      .jsonOk
        { data := query_events (toFilters p) events
          count := (query_events (toFilters p) events).length
          query_info :=
            ⟨p.id.map IdValue.toStr, p.fromDate, p.toDate, p.environment,
             mkDateRangeParsed (getParsedDates p).1 (getParsedDates p).2⟩ } ∧
    (mkDateRangeParsed (getParsedDates p).1 (getParsedDates p).2).isSome =
      (p.fromDate.isSome || p.toDate.isSome) :=
  ⟨query_data_json_eq events now hv hfmt, date_range_flag hv⟩

/-- Witness for C7: a no-filter request over a one-row table. -/
theorem c7_witness :
    query_data {} (dbEngine
      [{ id := "12345", event_date := ⟨2024, 1, 15⟩, event_type := "login",
         description := "User login event", value := 1,
         environment := "production", created_at := 7 }]) 0 =
      .jsonOk
        { data := [[("id", .s "12345"), ("event_date", .s "2024-01-15"),
                    ("event_type", .s "login"),
                    ("description", .s "User login event"), ("value", .num 1),
                    ("environment", .s "production"), ("created_at", .s "7")]]
          count := 1
          query_info := ⟨none, none, none, none, none⟩ } := by
  have h := c7_json_response_shape {} ⟨none, none, none, none, "json"⟩
    [{ id := "12345", event_date := ⟨2024, 1, 15⟩, event_type := "login",
       description := "User login event", value := 1,
       environment := "production", created_at := 7 }] 0 rfl rfl
  rw [h.1]
  rfl

/-- **C8.**  A successful feature-mode request wraps each row as
`{type: "Feature", id: <row id>, properties: <all non-id columns>,
geometry: null}` into `{features, count, metadata}` with `count` the
number of features and `metadata` carrying the generation timestamp and
the echoed filters; under an environment filter every feature's
`properties.environment` equals the filter value. -/
theorem c8_feature_mode (raw : RawPayload) (p : QueryPayload)
    (events : List EventRecord) (now : Nat)
    (hv : validatePayload raw = .ok p) (hfmt : p.format = "feature") :
    query_data raw (dbEngine events) now =
      .featureOk
        { features := featuresOf (query_events (toFilters p) events)
          count := (featuresOf (query_events (toFilters p) events)).length
          metadata :=
            { query_parameters :=
                ⟨p.id.map IdValue.toStr, p.fromDate, p.toDate, p.environment⟩
              generated_at := now
              date_range_parsed :=
                mkDateRangeParsed (getParsedDates p).1 (getParsedDates p).2 } } ∧
    (∀ r : EventRecord, featuresOf [rowToDict r] =
      [{ type := "Feature", id := some (.s r.id)
         properties :=
           [("event_date", .s (isoDate r.event_date)),
            ("event_type", .s r.event_type), ("description", .s r.description),
            ("value", .num r.value), ("environment", .s r.environment),
            ("created_at", .s (isoTimestamp r.created_at))]
         geometry := none }]) ∧
    (∀ feat ∈ featuresOf (query_events (toFilters p) events),
      feat.type = "Feature" ∧ feat.geometry = none) ∧
    (∀ env, p.environment = some env →
      ∀ feat ∈ featuresOf (query_events (toFilters p) events),
        feat.properties.lookup "environment" = some (.s env)) := by
  refine ⟨query_data_feature_eq events now hv hfmt, ?_, ?_, ?_⟩
  · intro r
    simp [featuresOf, rowToDict, List.lookup, List.filter]
  · intro feat hf
    obtain ⟨row, -, hfeat⟩ := List.mem_map.mp hf
    subst hfeat
    exact ⟨rfl, rfl⟩
  · intro env henv feat hf
    obtain ⟨row, hrow, hfeat⟩ := List.mem_map.mp hf
    obtain ⟨r, -, hms, hrd⟩ := mem_query_events hrow
    subst hrd
    subst hfeat
    have hprops := rowToDict_props_env r
    rw [matchesSpec_env hms henv] at hprops
    exact hprops

/-- Witness for C8: an environment-filtered feature request over a
two-row table. -/
theorem c8_witness :
    query_data { environment := some "production", format := "feature" }
      (dbEngine
        [{ id := "12345", event_date := ⟨2024, 1, 15⟩, event_type := "login",
           description := "User login event", value := 1,
           environment := "production", created_at := 7 },
         { id := "67890", event_date := ⟨2024, 1, 20⟩, event_type := "login",
           description := "User login event", value := 1,
           environment := "staging", created_at := 8 }]) 3 =
      .featureOk
        { features := [{ type := "Feature", id := some (.s "12345")
                         properties :=
                           [("event_date", .s "2024-01-15"),
                            ("event_type", .s "login"),
                            ("description", .s "User login event"),
                            ("value", .num 1),
                            ("environment", .s "production"),
                            ("created_at", .s "7")]
                         geometry := none }]
          count := 1
          metadata :=
            { query_parameters := ⟨none, none, none, some "production"⟩
              generated_at := 3
              date_range_parsed := none } } := by
  have h := c8_feature_mode { environment := some "production", format := "feature" }
    ⟨none, none, none, some "production", "feature"⟩
    [{ id := "12345", event_date := ⟨2024, 1, 15⟩, event_type := "login",
       description := "User login event", value := 1,
       environment := "production", created_at := 7 },
     { id := "67890", event_date := ⟨2024, 1, 20⟩, event_type := "login",
       description := "User login event", value := 1,
       environment := "staging", created_at := 8 }] 3 rfl rfl
  rw [h.1]
  rfl

/-- **C10.**  Every feature-mode response carries the constant top-level
`format = "feature"` field, and its metadata holds a `date_range_parsed`
block exactly when a date filter was supplied. -/
theorem c10_feature_format_field (raw : RawPayload) (p : QueryPayload)
    (events : List EventRecord) (now : Nat)
    (hv : validatePayload raw = .ok p) (hfmt : p.format = "feature") :
    ∃ resp : FeatureResponse,
      query_data raw (dbEngine events) now = .featureOk resp ∧
      resp.format = "feature" ∧
      resp.metadata.date_range_parsed.isSome =
        (p.fromDate.isSome || p.toDate.isSome) :=
  ⟨_, query_data_feature_eq events now hv hfmt, rfl, date_range_flag hv⟩

/-- Witness for C10: a feature request with a date filter present. -/
theorem c10_witness :
    ∃ resp : FeatureResponse,
      query_data { fromDate := some "2024/01/01", format := "feature" }
        (dbEngine []) 0 = .featureOk resp ∧
      resp.format = "feature" ∧
      resp.metadata.date_range_parsed.isSome =
        ((some "2024/01/01" : Option String).isSome ||
          (none : Option String).isSome) :=
  c10_feature_format_field { fromDate := some "2024/01/01", format := "feature" }
    ⟨none, some "2024/01/01", none, none, "feature"⟩ [] 0 rfl rfl


/-- **C1.**  The SQL text produced by the query builder is a function of
which filter fields are present only; the filter values (including the
SQL-metacharacter id) live solely in the bound-parameter list and never
occur in the SQL text, and filtering by the metacharacter id over any
table that does not literally contain it as a stored id yields zero rows,
leaving the (purely read) events table unchanged. -/
theorem c1_sql_text_presence_only_and_injection_safe :
    (∀ f1 f2 : Filters,
      f1.id_filter.isSome = f2.id_filter.isSome →
      f1.from_date.isSome = f2.from_date.isSome →
      f1.to_date.isSome = f2.to_date.isSome →
      f1.environment.isSome = f2.environment.isSome →
      build_sql f1 = build_sql f2) ∧
    query_params ⟨some injectionId, none, none, none⟩ = [.str injectionId] ∧
    ¬ injectionId.toList <:+: (build_sql ⟨some injectionId, none, none, none⟩).toList ∧
    (∀ events : List EventRecord, (∀ r ∈ events, r.id ≠ injectionId) →
      query_events ⟨some injectionId, none, none, none⟩ events = []) := by
  refine ⟨?_, rfl, ?_, ?_⟩
  · intro f1 f2 h1 h2 h3 h4
    have hwc : where_conditions f1 = where_conditions f2 := by
      unfold where_conditions
      rw [h1, h2, h3, h4]
    unfold build_sql where_clause
    rw [hwc]
  · intro hinf
    have hmem : ';' ∈ (build_sql ⟨some injectionId, none, none, none⟩).toList :=
      hinf.subset (by decide)
    revert hmem
    decide
  · intro events hne
    unfold query_events
    have hfil : events.filter
        (evalWhere (where_conditions ⟨some injectionId, none, none, none⟩)
          (query_params ⟨some injectionId, none, none, none⟩)) = [] := by
      rw [List.filter_eq_nil_iff]
      intro r hr
      rw [evalWhere_matches]
      simp only [matchesSpec, Bool.and_eq_true, beq_iff_eq, Bool.and_true]
      intro hcon
      exact hne r hr hcon
    rw [hfil]
    rfl

/-- Witness for C1: concrete presence-equal filters give identical SQL,
and the metacharacter id selects nothing from a concrete table. -/
theorem c1_witness :
    build_sql ⟨some "a", some ⟨2024, 1, 1⟩, none, some "production"⟩ =
      build_sql ⟨some "b", some ⟨2023, 5, 6⟩, none, some "staging"⟩ ∧
    query_events ⟨some injectionId, none, none, none⟩
      [{ id := "12345", event_date := ⟨2024, 1, 15⟩, event_type := "login",
         description := "User login event", value := 1, environment := "production",
         created_at := 0 }] = [] :=
  ⟨c1_sql_text_presence_only_and_injection_safe.1 _ _ rfl rfl rfl rfl,
   c1_sql_text_presence_only_and_injection_safe.2.2.2 _ (by decide)⟩

/-- **C2.**  The WHERE clause holds exactly one clause per present filter
field (id equality, lower and upper date bounds, environment equality) and
is empty exactly when no field is present (then every row matches); the
executed query filters by that conjunction, sorts ascending by
`(event_date, created_at)`, materializes the full result, and converts
dates and timestamps to ISO-8601 text at the boundary. -/
theorem c2_where_clause_and_select_semantics (f : Filters) (events : List EventRecord) :
    (∀ r, evalWhere (where_conditions f) (query_params f) r = matchesSpec f r) ∧
    (("id = ?" ∈ where_conditions f ↔ f.id_filter.isSome = true) ∧
     ("event_date >= ?" ∈ where_conditions f ↔ f.from_date.isSome = true) ∧
     ("event_date <= ?" ∈ where_conditions f ↔ f.to_date.isSome = true) ∧
     ("environment = ?" ∈ where_conditions f ↔ f.environment.isSome = true)) ∧
    (where_conditions f).length =
      ((if f.id_filter.isSome then 1 else 0) + (if f.from_date.isSome then 1 else 0) +
       (if f.to_date.isSome then 1 else 0) + (if f.environment.isSome then 1 else 0)) ∧
    (where_conditions f = [] ↔
      f.id_filter = none ∧ f.from_date = none ∧ f.to_date = none ∧
        f.environment = none) ∧
    ((f.id_filter = none ∧ f.from_date = none ∧ f.to_date = none ∧
        f.environment = none) → ∀ r, matchesSpec f r = true) ∧
    query_events f events =
      ((events.filter (matchesSpec f)).insertionSort orderKeyLe).map rowToDict ∧
    List.Sorted orderKeyLe ((events.filter (matchesSpec f)).insertionSort orderKeyLe) ∧
    List.Perm ((events.filter (matchesSpec f)).insertionSort orderKeyLe)
      (events.filter (matchesSpec f)) ∧
    (∀ r : EventRecord, rowToDict r =
      [("id", .s r.id), ("event_date", .s (isoDate r.event_date)),
       ("event_type", .s r.event_type), ("description", .s r.description),
       ("value", .num r.value), ("environment", .s r.environment),
       ("created_at", .s (isoTimestamp r.created_at))]) := by
  have hfe : events.filter (evalWhere (where_conditions f) (query_params f)) =
      events.filter (matchesSpec f) :=
    List.filter_congr (fun r _ => evalWhere_matches f r)
  refine ⟨evalWhere_matches f, ?_, ?_, ?_, ?_, ?_, ?_, ?_, fun r => rfl⟩
  · rcases f with ⟨i, fd, td, env⟩
    cases i <;> cases fd <;> cases td <;> cases env <;>
      simp [where_conditions]
  · rcases f with ⟨i, fd, td, env⟩
    cases i <;> cases fd <;> cases td <;> cases env <;>
      simp [where_conditions]
  · rcases f with ⟨i, fd, td, env⟩
    cases i <;> cases fd <;> cases td <;> cases env <;>
      simp [where_conditions]
  · rintro ⟨h1, h2, h3, h4⟩ r
    simp [matchesSpec, h1, h2, h3, h4]
  · unfold query_events
    rw [hfe]
  · exact List.sorted_insertionSort orderKeyLe _
  · exact List.perm_insertionSort orderKeyLe _

/-- **C3.**  A payload with both dates present and well-formed but
`fromDate > toDate` fails validation with `InvalidDateRange`; the endpoint
answers 422 identically for every storage engine — the engine is never
consulted. -/
theorem c3_invalid_date_range_422 (raw : RawPayload) (fs ts : String) (fd td : Date)
    (hf : raw.fromDate = some fs) (ht : raw.toDate = some ts)
    (hfd : strptimeYMD fs = some fd) (htd : strptimeYMD ts = some td)
    (hgt : dateLt td fd = true)
    (hfmt : raw.format = "json" ∨ raw.format = "feature") :
    validatePayload raw = .error .invalidDateRange ∧
    ∀ (engine : Filters → Except String (List (List (String × Cell)))) (now : Nat),
      query_data raw engine now = .validationFailed 422 .invalidDateRange := by
  have h1 : dateFieldOk (some fs) = true := by simp [dateFieldOk, hfd]
  have h2 : dateFieldOk (some ts) = true := by simp [dateFieldOk, htd]
  have h3 : (raw.format == "json" || raw.format == "feature") = true := by
    rcases hfmt with h | h <;> simp [h]
  have hval : validatePayload raw = .error .invalidDateRange := by
    unfold validatePayload
    rw [hf, ht, h1, h2, h3]
    simp only [Bool.not_true, Bool.false_eq_true, if_false, hfd, htd, hgt, if_true]
  refine ⟨hval, fun engine now => ?_⟩
  unfold query_data
  rw [hval]

/-- Witness for C3 at a concrete inverted date range. -/
theorem c3_witness :
    query_data { fromDate := some "2024/12/31", toDate := some "2024/01/01" }
        (dbEngine []) 0 = .validationFailed 422 .invalidDateRange :=
  (c3_invalid_date_range_422 _ "2024/12/31" "2024/01/01" ⟨2024, 12, 31⟩ ⟨2024, 1, 1⟩
    rfl rfl rfl rfl (by decide) (Or.inl rfl)).2 (dbEngine []) 0

/-- **C6.**  The columnar (Feather) variant rebuilds clause list, parameter
list and SQL text identical to the row-oriented variant, selects and
orders the same rows, and its rows agree field-for-field with the JSON
rows once serialized through the same ISO-8601 boundary conversion. -/
theorem c6_columnar_variant_equivalence (f : Filters) (events : List EventRecord) :
    where_conditions_feather f = where_conditions f ∧
    query_params_feather f = query_params f ∧
    build_sql_feather f = build_sql f ∧
    query_events_to_feather f events =
      (events.filter
        (evalWhere (where_conditions f) (query_params f))).insertionSort orderKeyLe ∧
    (query_events_to_feather f events).map rowToDict = query_events f events :=
  ⟨rfl, rfl, rfl, rfl, rfl⟩

/-- **C9 counterexample.**  The health endpoint's degraded body carries the
raw engine error text in its `error` field, visible to the caller. -/
theorem c9_counterexample :
    health_check (.error "IO Error: unable to open database file") =
      (503, .unhealthy "unhealthy" "IO Error: unable to open database file") := rfl

/-- **C9 (amended).**  Query-endpoint engine failures surface as a 500
with fixed generic strings, independent of the engine message; the health
endpoint degrades to a 503 body instead of throwing, but that body echoes
the raw engine message in its `error` field. -/
theorem c9_engine_error_surfacing :
    (∀ (raw : RawPayload) (p : QueryPayload) (msg : String) (now : Nat),
      validatePayload raw = .ok p →
      query_data raw (fun _ => .error msg) now =
        .serverError 500 "Internal server error"
          "An unexpected error occurred while processing the request") ∧
    (∀ ti : TableInfo,
      health_check (.ok ti) = (200, .healthy true ti.row_count ti.unique_ids)) ∧
    (∀ msg : String, health_check (.error msg) = (503, .unhealthy "unhealthy" msg)) := by
  refine ⟨?_, fun ti => rfl, fun msg => rfl⟩
  intro raw p msg now hv
  unfold query_data
  rw [hv]

/-- Witness for C9 at a concrete failing engine. -/
theorem c9_witness :
    query_data {} (fun _ => .error "Catalog Error: table events does not exist") 0 =
      .serverError 500 "Internal server error"
        "An unexpected error occurred while processing the request" :=
  c9_engine_error_surfacing.1 {} ⟨none, none, none, none, "json"⟩ _ 0 rfl

/-- **C4 counterexample.**  `"2024/1/1"` is accepted by validation (Python
`strptime` admits one-digit months and days) although it does not match
the claimed fixed 4-digit/2-digit/2-digit pattern. -/
theorem c4_counterexample :
    (strptimeYMD "2024/1/1").isSome = true ∧ fixedPattern422 "2024/1/1" = false ∧
    validatePayload { fromDate := some "2024/1/1" } =
      .ok ⟨none, some "2024/1/1", none, none, "json"⟩ :=
  ⟨rfl, rfl, rfl⟩

/-- **C4 (amended).**  A date string is accepted exactly when it is a
4-digit year, a one- or two-digit month in 1..12 and a one- or two-digit
day in 1..31, slash-separated, denoting a real calendar date; every
non-conforming string is rejected with `InvalidDateFormat` naming the
field, before the engine is ever consulted. -/
theorem c4_date_acceptance_characterization (s : String) :
    dateFieldOk (some s) = specAcceptYMD s ∧
    (specAcceptYMD s = false → ∀ (raw : RawPayload), raw.fromDate = some s →
      ∀ (engine : Filters → Except String (List (List (String × Cell)))) (now : Nat),
        query_data raw engine now =
          .validationFailed 422 (.invalidDateFormat "fromDate")) := by
  have hiff : dateFieldOk (some s) = specAcceptYMD s := strptime_isSome_iff_spec s
  refine ⟨hiff, fun hfalse raw hraw engine now => ?_⟩
  unfold query_data validatePayload
  rw [hraw, hiff, hfalse]
  rfl

/-- Witness for C4 at concrete accepted and rejected strings. -/
theorem c4_witness :
    dateFieldOk (some "2023/02/29") = specAcceptYMD "2023/02/29" ∧
    query_data { fromDate := some "2024-01-01" } (dbEngine []) 0 =
      .validationFailed 422 (.invalidDateFormat "fromDate") :=
  ⟨(c4_date_acceptance_characterization "2023/02/29").1,
   (c4_date_acceptance_characterization "2024-01-01").2 rfl _ rfl (dbEngine []) 0⟩

/-- **C5 counterexample.**  The empty-string id passes validation
unrejected (no validator guards `id`), contradicting the claim that all
three fields reject the empty string. -/
theorem c5_counterexample :
    validatePayload { id := some (.str "") } =
      .ok ⟨some (.str ""), none, none, none, "json"⟩ := rfl

/-- **C5 (amended).**  Empty-string `fromDate`/`toDate` are rejected as
`InvalidDateFormat` naming the field; an empty-string `id`, however, is
accepted and becomes a present id-equality filter (still never treated as
an absent field). -/
theorem c5_empty_string_handling :
    (∀ raw : RawPayload, raw.fromDate = some "" →
      validatePayload raw = .error (.invalidDateFormat "fromDate")) ∧
    (∀ raw : RawPayload, raw.toDate = some "" → dateFieldOk raw.fromDate = true →
      validatePayload raw = .error (.invalidDateFormat "toDate")) ∧
    (∀ (raw : RawPayload) (p : QueryPayload), validatePayload raw = .ok p →
      raw.id = some (.str "") →
      p.id = some (.str "") ∧ (toFilters p).id_filter = some "" ∧
      "id = ?" ∈ where_conditions (toFilters p)) := by
  refine ⟨?_, ?_, ?_⟩
  · intro raw h
    unfold validatePayload
    rw [h]
    rfl
  · intro raw ht hf
    unfold validatePayload
    rw [ht, hf]
    rfl
  · intro raw p hv hid
    obtain ⟨hp, -, -, -⟩ := validate_ok_inv hv
    subst hp
    refine ⟨by simp [hid], by simp [toFilters, hid, IdValue.toStr], ?_⟩
    simp [where_conditions, toFilters, hid]

/-- Witness for C5 at concrete empty-string fields. -/
theorem c5_witness :
    validatePayload { fromDate := some "" } = .error (.invalidDateFormat "fromDate") ∧
    validatePayload { toDate := some "" } = .error (.invalidDateFormat "toDate") ∧
    "id = ?" ∈ where_conditions
      (toFilters ⟨some (.str ""), none, none, none, "json"⟩) :=
  ⟨c5_empty_string_handling.1 _ rfl, c5_empty_string_handling.2.1 _ rfl rfl,
   (c5_empty_string_handling.2.2 { id := some (.str "") } _ rfl rfl).2.2⟩

/-- Witness for C2: concrete clause membership, the empty predicate, and
the executed query over a concrete table. -/
theorem c2_witness :
    "id = ?" ∈ where_conditions ⟨some "12345", none, none, none⟩ ∧
    where_conditions ⟨none, none, none, none⟩ = [] ∧
    matchesSpec ⟨none, none, none, none⟩
      { id := "12345", event_date := ⟨2024, 1, 15⟩, event_type := "login",
        description := "User login event", value := 1,
        environment := "production", created_at := 7 } = true ∧
    query_events ⟨none, none, none, none⟩
      [{ id := "12345", event_date := ⟨2024, 1, 15⟩, event_type := "login",
         description := "User login event", value := 1,
         environment := "production", created_at := 7 }] =
      (([{ id := "12345", event_date := ⟨2024, 1, 15⟩, event_type := "login",
           description := "User login event", value := 1,
           environment := "production", created_at := 7 }].filter
          (matchesSpec ⟨none, none, none, none⟩)).insertionSort orderKeyLe).map
        rowToDict := by
  refine ⟨?_, ?_, ?_, ?_⟩
  · exact (c2_where_clause_and_select_semantics ⟨some "12345", none, none, none⟩
      []).2.1.1.mpr rfl
  · exact (c2_where_clause_and_select_semantics ⟨none, none, none, none⟩
      []).2.2.2.1.mpr ⟨rfl, rfl, rfl, rfl⟩
  · exact (c2_where_clause_and_select_semantics ⟨none, none, none, none⟩
      []).2.2.2.2.1 ⟨rfl, rfl, rfl, rfl⟩ _
  · exact (c2_where_clause_and_select_semantics ⟨none, none, none, none⟩
      [{ id := "12345", event_date := ⟨2024, 1, 15⟩, event_type := "login",
         description := "User login event", value := 1,
         environment := "production", created_at := 7 }]).2.2.2.2.2.1

end DataExtractionApi
